import Mathlib

/-!
Verification of the execution-and-repair state machine of the `ai-agent`
repository (`src/Ai-agent.ts`).

The TypeScript source is shallowly embedded: strings are Lean `String`s
(operated on through their underlying `List Char`, so that everything
reduces in the kernel), the filesystem and the external oracles are modelled
explicitly, and every effectful call of the source is recorded as an `Event`
in an execution trace.
-/

namespace Agent

/-- Whitespace characters removed by JavaScript `String.prototype.trim`
(restricted to the ASCII range, which is all this program ever meets). -/
def isJsWhitespace (c : Char) : Bool :=
  c = ' ' || c = '\t' || c = '\n' || c = '\r' || c = '\x0b' || c = '\x0c'

/-- Letters matched by the case-insensitive regex class `[a-z]` (flag `i`). -/
def isRegexLetter (c : Char) : Bool :=
  ('a' ≤ c && c ≤ 'z') || ('A' ≤ c && c ≤ 'Z')

/-- Drop `isJsWhitespace` characters from both ends of a character list. -/
def trimL (l : List Char) : List Char :=
  ((l.dropWhile isJsWhitespace).reverse.dropWhile isJsWhitespace).reverse

/-- JavaScript `s.trim()`. -/
def jsTrim (s : String) : String :=
  String.mk (trimL s.toList)

/-- JavaScript `s.split(sep)` for a one-character separator: split at every
occurrence, keeping empty pieces; the empty string splits to `[[]]`. -/
def splitOnChar (sep : Char) : List Char → List (List Char)
  | [] => [[]]
  | c :: t =>
    let r := splitOnChar sep t
    if c = sep then [] :: r
    else
      match r with
      | [] => [[c]]
      | h :: t2 => (c :: h) :: t2

/-- JavaScript `s.startsWith(p)`. -/
def strStartsWith (s p : String) : Bool :=
  p.toList.isPrefixOf s.toList

/-- JavaScript regex test for `p` anchored at the end of `s` (used for the
extension test `/\.(js|ts|...)$/`). -/
def strEndsWith (s p : String) : Bool :=
  p.toList.reverse.isPrefixOf s.toList.reverse

/-- Whether `sub` occurs as a contiguous substring. -/
def listContainsSub (sub : List Char) : List Char → Bool
  | [] => sub.isEmpty
  | c :: t => sub.isPrefixOf (c :: t) || listContainsSub sub t

/-- JavaScript `s.includes(sub)`. -/
def strContainsSub (s sub : String) : Bool :=
  listContainsSub sub.toList s.toList

/-- JavaScript `s.toLowerCase()` (ASCII case mapping, all this program needs). -/
def strToLower (s : String) : String :=
  String.mk (s.toList.map Char.toLower)

/-- JavaScript `s.slice(n)` for ASCII strings. -/
def strDropN (s : String) (n : Nat) : String :=
  String.mk (s.toList.drop n)

/-- JavaScript `cmd.split(" ").pop()!` — the last space-separated token. -/
def lastToken (cmd : String) : String :=
  String.mk ((splitOnChar ' ' cmd.toList).getLastD [])

/-- One application of the first replace of `stripCodeFences`: an anchored
match of three backticks, a greedy run of letters (case-insensitive), and an
optional newline, removed when present at the very start. -/
def dropLeadingFence : List Char → List Char
  | '\x60' :: '\x60' :: '\x60' :: rest =>
    match rest.dropWhile isRegexLetter with
    | '\n' :: r => r
    | r => r
  | l => l

/-- One application of the second replace of `stripCodeFences`: three
backticks removed when they end the string (JavaScript `$` matches only at
the very end of the input). -/
def dropTrailingFence (l : List Char) : List Char :=
  match l.reverse with
  | '\x60' :: '\x60' :: '\x60' :: r => r.reverse
  | _ => l

/-- `stripCodeFences` of the source (`Ai-agent.ts:23-28`): strip a leading
fence opener, then a trailing fence closer, then trim. -/
def stripCodeFences (code : String) : String :=
  String.mk (trimL (dropTrailingFence (dropLeadingFence code.toList)))

/-- Extensions recognized by the regex in `isFileCreationCommand`. -/
def creationExtensions : List String :=
  [".js", ".ts", ".json", ".jsx", ".tsx", ".py", ".sh", ".html", ".css"]

/-- `isFileCreationCommand` of the source (`Ai-agent.ts:31-37`). -/
def isFileCreationCommand (cmd : String) : Bool :=
  creationExtensions.any (fun e => strEndsWith cmd e)
    || strContainsSub cmd "touch"
    || strContainsSub cmd ">"

/-- Deny-list of `isLongRunningCommand` (`Ai-agent.ts:127-130`). -/
def longRunningList : List String :=
  ["npm run dev", "yarn dev", "pnpm dev"]

/-- `isLongRunningCommand` of the source. -/
def isLongRunningCommand (cmd : String) : Bool :=
  longRunningList.any (fun l => strContainsSub cmd l)

/-- The skip filter of `executePlan` (`Ai-agent.ts:138-145`): empty line,
comment, fence marker, or the bare language tag `bash`. -/
def isSkipLine (cmd : String) : Bool :=
  cmd.toList.isEmpty
    || strStartsWith cmd "#"
    || strStartsWith cmd "```"
    || strToLower cmd == "bash"

/-- The candidate-command list built by `executePlan` (`Ai-agent.ts:134-153`):
split the plan on newlines, trim each line, drop skip lines and
long-running commands. -/
def planToCommands (plan : String) : List String :=
  ((splitOnChar '\n' plan.toList).map (fun l => String.mk (trimL l))).filter
    (fun cmd => !(isSkipLine cmd) && !(isLongRunningCommand cmd))

/-- Result of the Command Classifier on one (already trimmed) plan line. -/
inductive Classification where
  | skip
  | longRunning
  | directoryChange (target : String)
  | fileCreation (path : String)
  | shellCommand
  deriving DecidableEq, Repr

/-- The classifier, with the decision order of `executePlan`
(`Ai-agent.ts:138-190`): skip filter, long-running filter, `cd ` handling,
`isFileCreationCommand`, generic shell fallback. -/
def classify (cmd : String) : Classification :=
  if isSkipLine cmd then .skip
  else if isLongRunningCommand cmd then .longRunning
  else if strStartsWith cmd "cd " then .directoryChange (jsTrim (strDropN cmd 3))
  else if isFileCreationCommand cmd then .fileCreation (lastToken cmd)
  else .shellCommand

/-- Model of Node's `path.resolve(base, target)` for the shapes this program
produces: `base` absolute and `target` either absolute or a normalized
relative path (no `.`/`..` segments). -/
def pathResolve (base target : String) : String :=
  if target = "" then base
  else if strStartsWith target "/" then target
  else base ++ "/" ++ target

/-- Join path segments back with `/` separators. -/
def joinWithSlash : List (List Char) → List Char
  | [] => []
  | [l] => l
  | l :: ls => l ++ '/' :: joinWithSlash ls

/-- Model of Node's `path.dirname` for normalized paths. -/
def pathDirname (p : String) : String :=
  let parts := splitOnChar '/' p.toList
  if parts.length ≤ 1 then "." else String.mk (joinWithSlash parts.dropLast)

/-- Outcome of one `executePlan` call.  `ok`/`failed` are the `success`
flag of the returned record; `oracleErr` is an exception thrown by an
oracle call (`response.text!` missing or the request raising) escaping the
function — `executePlan` has no handler for it; `diverged` marks fuel
exhaustion of the modelled repair recursion. -/
inductive Outcome where
  | ok
  | failed
  | oracleErr
  | diverged
  deriving DecidableEq, Repr

/-- Model of the filesystem touched by the program: a set of directories
known to exist and a map from file paths to their current content
(later writes shadow earlier ones). -/
structure FS where
  dirs : List String
  files : List (String × String)
  deriving DecidableEq, Repr

/-- Effect of `fs.promises.mkdir(p, { recursive: true })`. -/
def fsMkdir (fs : FS) (p : String) : FS :=
  { fs with dirs := p :: fs.dirs }

/-- Effect of `writeCodeToFile` (`Ai-agent.ts:59-63`): create the parent
directory of the file, then write (overwrite) the file. -/
def fsWrite (fs : FS) (p content : String) : FS :=
  { dirs := pathDirname p :: fs.dirs, files := (p, content) :: fs.files }

/-- Content currently on disk at `p` (`fs.promises.readFile`); all reads the
program performs are of files it has just written. -/
def fsRead (fs : FS) (p : String) : String :=
  ((fs.files.lookup p).getD "")

/-- The `ExecutionState` interface of the source (`Ai-agent.ts:16-20`). -/
structure ExecutionState where
  currentDir : String
  executedCommands : List String
  projectRoot : Option String
  deriving DecidableEq, Repr

/-- Trace entry for every effectful call the program performs. -/
inductive Event where
  /-- `fs.promises.mkdir` issued by the `cd` handler. -/
  | mkdirE (p : String)
  /-- `process.chdir` issued by the `cd` handler. -/
  | chdirE (p : String)
  /-- Generation-oracle call of `generateFileContent` for path `p`. -/
  | oracleGen (p task : String)
  /-- `writeCodeToFile` of `code` at path `p`. -/
  | writeF (p code : String)
  /-- `execAsync(cmd, { cwd })` — a shell subprocess. -/
  | execSh (cwd cmd : String)
  /-- `execAsync` of the run command inside `runFileAndFixIfError`
  (issued without an explicit cwd, i.e. in the process working directory). -/
  | execRun (cmd : String)
  /-- Repair-oracle call of `runFileAndFixIfError` with the failing code,
  the captured diagnostic and the task. -/
  | oracleFix (code err task : String)
  deriving DecidableEq, Repr

/-- The external world: oracle responses and the outcomes of subprocess and
filesystem calls.  `none` from an oracle models a call that raises or
returns no text. -/
structure Env where
  /-- Response of the generation oracle in `generateFileContent`. -/
  genOracle : String → String → Option String
  /-- Response of the repair oracle in `runFileAndFixIfError`,
  as a function of (failing code, diagnostic, task). -/
  fixOracle : String → String → String → Option String
  /-- Response of the planning oracle in `getRefinedPlan`. -/
  planOracle : ExecutionState → String → Option String
  /-- Whether running `node <p>` on content `c` exits with code 0. -/
  runOk : String → String → Bool
  /-- Diagnostic text (`error.stderr || error.message`) of a failing run. -/
  runErr : String → String → String
  /-- Whether `execAsync(cmd, { cwd })` succeeds. -/
  shellExec : String → String → Bool
  /-- Whether `fs.promises.mkdir` succeeds for this path. -/
  mkdirOk : String → Bool
  /-- Whether `process.chdir` succeeds for this path. -/
  chdirOk : String → Bool
  /-- Operator's answer to the plan-confirmation prompt, indexed by the
  number of attempts still available. -/
  confirm : Nat → Bool
  /-- Operator's feedback after a failed attempt, same indexing. -/
  feedback : Nat → String

/-- Terminal status of the Runtime Validator loop. -/
inductive FixStatus where
  /-- The run succeeded — the `Done` state. -/
  | done
  /-- The repair-oracle call raised or returned no text; the exception
  propagates to the caller. -/
  | oracleErr
  /-- Fuel exhausted: the unbounded recursion of the source did not
  converge within the given bound. -/
  | diverged
  deriving DecidableEq, Repr

/-- `runFileAndFixIfError` of the source (`Ai-agent.ts:66-95`): run the file
with `node`; on failure read the file, ask the repair oracle, strip fences,
overwrite the file, and recurse.  The source recurses unboundedly; `fuel`
bounds the recursion in the model. -/
def runFix (env : Env) : Nat → FS → String → String → FixStatus × FS × List Event
  | 0, fs, _p, _task => (.diverged, fs, [])
  | fuel + 1, fs, p, task =>
    let content := fsRead fs p
    if env.runOk p content then
      (.done, fs, [Event.execRun ("node " ++ p)])
    else
      let err := env.runErr p content
      match env.fixOracle content err task with
      | none => (.oracleErr, fs, [Event.execRun ("node " ++ p), Event.oracleFix content err task])
      | some raw =>
        let fixed := stripCodeFences (jsTrim raw)
        let r := runFix env fuel (fsWrite fs p fixed) p task
        (r.1, r.2.1,
          Event.execRun ("node " ++ p) :: Event.oracleFix content err task
            :: Event.writeF p fixed :: r.2.2)

/-- Result of handling one candidate command inside the loop of
`executePlan`. -/
inductive StepRes where
  /-- The command was skipped or completed; the loop continues. -/
  | cont (st : ExecutionState) (fs : FS) (ev : List Event)
  /-- The loop stops: `success=false` return, a propagating oracle
  exception, or fuel exhaustion of the repair loop. -/
  | halt (o : Outcome) (st : ExecutionState) (fs : FS) (ev : List Event)
  deriving DecidableEq, Repr

/-- The `cd ` handler of `executePlan` (`Ai-agent.ts:161-180`), at the
already-resolved target `newPath`: create the directory when absent (a
failing `mkdir` aborts with the state untouched), then `process.chdir`.
`state.currentDir` is assigned before `process.chdir` in the source
(`Ai-agent.ts:170-171`), so a chdir failure leaves the mutated `currentDir`
behind while `executedCommands` is not extended. -/
def cdStepAt (env : Env) (cmd : String) (st : ExecutionState) (fs : FS)
    (newPath : String) : StepRes :=
  if !(fs.dirs.contains newPath) && !(env.mkdirOk newPath) then
    .halt .failed st fs []
  else if env.chdirOk newPath then
    .cont { st with currentDir := newPath,
                    executedCommands := st.executedCommands ++ [cmd] }
      (if fs.dirs.contains newPath then fs else fsMkdir fs newPath)
      ((if fs.dirs.contains newPath then ([] : List Event)
        else [Event.mkdirE newPath]) ++ [Event.chdirE newPath])
  else
    .halt .failed { st with currentDir := newPath }
      (if fs.dirs.contains newPath then fs else fsMkdir fs newPath)
      (if fs.dirs.contains newPath then ([] : List Event)
       else [Event.mkdirE newPath])

/-- The file-creation handler of `executePlan` (`Ai-agent.ts:182-190`), at
the already-resolved target `fullPath`: call the generation oracle (a
failure propagates as an exception), strip the response, write the file,
then hand over to the Runtime Validator. -/
def fcStepAt (env : Env) (task : String) (fuel : Nat) (cmd : String)
    (st : ExecutionState) (fs : FS) (fullPath : String) : StepRes :=
  match env.genOracle fullPath task with
  | none => .halt .oracleErr st fs [Event.oracleGen fullPath task]
  | some raw =>
    match runFix env fuel (fsWrite fs fullPath (stripCodeFences (jsTrim raw)))
        fullPath task with
    | (.done, fs2, ev2) =>
      .cont { st with executedCommands := st.executedCommands ++ [cmd] } fs2
        (Event.oracleGen fullPath task
          :: Event.writeF fullPath (stripCodeFences (jsTrim raw)) :: ev2)
    | (.oracleErr, fs2, ev2) =>
      .halt .oracleErr st fs2
        (Event.oracleGen fullPath task
          :: Event.writeF fullPath (stripCodeFences (jsTrim raw)) :: ev2)
    | (.diverged, fs2, ev2) =>
      .halt .diverged st fs2
        (Event.oracleGen fullPath task
          :: Event.writeF fullPath (stripCodeFences (jsTrim raw)) :: ev2)

/-- Handling of one candidate command by `executePlan`
(`Ai-agent.ts:155-207`): dedup check, `cd ` handler, file-creation handler,
generic shell execution. -/
def execStep (env : Env) (task : String) (fuel : Nat) (cmd : String)
    (st : ExecutionState) (fs : FS) : StepRes :=
  if st.executedCommands.contains cmd then
    .cont st fs []
  else if strStartsWith cmd "cd " then
    cdStepAt env cmd st fs (pathResolve st.currentDir (jsTrim (strDropN cmd 3)))
  else if isFileCreationCommand cmd then
    fcStepAt env task fuel cmd st fs (pathResolve st.currentDir (lastToken cmd))
  else if env.shellExec st.currentDir cmd then
    .cont { st with executedCommands := st.executedCommands ++ [cmd] }
      fs [Event.execSh st.currentDir cmd]
  else
    .halt .failed st fs [Event.execSh st.currentDir cmd]

/-- The command loop of `executePlan` over the candidate list. -/
def execCmds (env : Env) (task : String) (fuel : Nat) :
    List String → ExecutionState → FS → Outcome × ExecutionState × FS × List Event
  | [], st, fs => (.ok, st, fs, [])
  | cmd :: rest, st, fs =>
    match execStep env task fuel cmd st fs with
    | .cont st2 fs2 ev =>
      let r := execCmds env task fuel rest st2 fs2
      (r.1, r.2.1, r.2.2.1, ev ++ r.2.2.2)
    | .halt o st2 fs2 ev => (o, st2, fs2, ev)

/-- `executePlan` of the source (`Ai-agent.ts:122-210`): build the candidate
list, then run the command loop.  `Outcome.ok`/`Outcome.failed` are the
`success` flag of the returned record; `Outcome.oracleErr` is an exception
escaping the function. -/
def executePlan (env : Env) (fuel : Nat) (plan : String)
    (st : ExecutionState) (fs : FS) (task : String) :
    Outcome × ExecutionState × FS × List Event :=
  execCmds env task fuel (planToCommands plan) st fs

/-- Terminal status of one whole run of `main`. -/
inductive RunOutcome where
  /-- `executePlan` succeeded: "All done!". -/
  | success
  /-- The attempt ceiling was exhausted: "Maximum attempts reached.". -/
  | maxAttempts
  /-- The operator declined the plan: "Aborted by user.". -/
  | userAbort
  /-- An exception escaped `main` and was logged by the top-level
  `main().catch` handler: "Fatal error". -/
  | fatalError
  /-- Fuel exhaustion inside the repair loop (model artifact of the
  source's unbounded recursion). -/
  | diverged
  /-- The operator typed `exit` at the task prompt. -/
  | exited
  deriving DecidableEq, Repr

/-- The retry loop of `main` (`Ai-agent.ts:234-268`), recursing on the
number of attempts still available (the source counts `attempt` up towards
3).  The last component counts planning-oracle calls made. -/
def driverLoop (env : Env) (fuel : Nat) :
    Nat → ExecutionState → FS → String →
      RunOutcome × ExecutionState × FS × List Event × Nat
  | 0, st, fs, _task => (.maxAttempts, st, fs, [], 0)
  | n + 1, st, fs, task =>
    match env.planOracle st task with
    | none => (.fatalError, st, fs, [], 1)
    | some raw =>
      let plan := stripCodeFences (jsTrim raw)
      if !(env.confirm (n + 1)) then (.userAbort, st, fs, [], 1)
      else
        let r := executePlan env fuel plan st fs task
        match r.1 with
        | .ok => (.success, r.2.1, r.2.2.1, r.2.2.2, 1)
        | .failed =>
          let fb := env.feedback (n + 1)
          let d := driverLoop env fuel n r.2.1 r.2.2.1 (task ++ "\nError: " ++ fb)
          (d.1, d.2.1, d.2.2.1, r.2.2.2 ++ d.2.2.2.1, d.2.2.2.2 + 1)
        | .oracleErr => (.fatalError, r.2.1, r.2.2.1, r.2.2.2, 1)
        | .diverged => (.diverged, r.2.1, r.2.2.1, r.2.2.2, 1)

/-- `main` of the source (`Ai-agent.ts:213-269`): the `exit` sentinel check,
then the three-attempt retry loop. -/
def sessionMain (env : Env) (fuel : Nat) (rawTask : String)
    (st : ExecutionState) (fs : FS) :
    RunOutcome × ExecutionState × FS × List Event × Nat :=
  if strToLower rawTask == "exit" then (.exited, st, fs, [], 0)
  else driverLoop env fuel 3 st fs rawTask

/-! ### Concrete input data used to witness the theorems -/

/-- Starting execution state of a run rooted at `/r`. -/
def stR : ExecutionState := ⟨"/r", [], none⟩

/-- Empty filesystem model. -/
def fsEmpty : FS := ⟨[], []⟩

/-- Benign environment: every oracle answers, every effect succeeds. -/
def envOk : Env :=
  { genOracle := fun _ _ => some "gen"
    fixOracle := fun _ _ _ => some "fix"
    planOracle := fun _ _ => some "plan"
    runOk := fun _ _ => true
    runErr := fun _ _ => "err"
    shellExec := fun _ _ => true
    mkdirOk := fun _ => true
    chdirOk := fun _ => true
    confirm := fun _ => true
    feedback := fun _ => "fb" }

/-- Environment whose shell only accepts the command `alpha`. -/
def envShellAlpha : Env := { envOk with shellExec := fun _ c => c == "alpha" }

/-- Environment whose shell rejects every command. -/
def envShellFail : Env := { envOk with shellExec := fun _ _ => false }

/-- Environment that plans the failing shell command `beta` every time. -/
def envPlanBeta : Env :=
  { envOk with planOracle := fun _ _ => some "beta"
               shellExec := fun _ _ => false }

/-- Environment whose generation oracle fails while the plan contains a
file-creation command. -/
def envGenNone : Env :=
  { envOk with planOracle := fun _ _ => some "touch app.py"
               genOracle := fun _ _ => none }

/-- Environment for the repair loop: only the content `fix` runs
successfully, and the repair oracle always answers `fix`. -/
def envRepair : Env :=
  { envOk with runOk := fun _ c => c == "fix"
               fixOracle := fun _ _ _ => some "fix" }

/-! ### Helper lemmas -/

lemma strMk_toList (s : String) : String.mk s.toList = s := by
  cases s
  rfl

lemma strToList_append (a b : String) : (a ++ b).toList = a.toList ++ b.toList := by
  cases a
  cases b
  rfl

lemma isPrefixOf_self_append (l r : List Char) : l.isPrefixOf (l ++ r) = true := by
  induction l with
  | nil => simp [List.isPrefixOf]
  | cons c t ih => simp [List.isPrefixOf, ih]

lemma strStartsWith_append (p s : String) : strStartsWith (p ++ s) p = true := by
  unfold strStartsWith
  rw [strToList_append]
  exact isPrefixOf_self_append _ _

lemma strDropN_cd (t : String) : strDropN ("cd " ++ t) 3 = t := by
  unfold strDropN
  rw [strToList_append, show "cd ".toList = ['c', 'd', ' '] from rfl]
  simp [strMk_toList]

lemma contains_iff_mem (l : List String) (c : String) : l.contains c = true ↔ c ∈ l := by
  simp [List.contains]

lemma fsRead_fsWrite (fs : FS) (p c : String) : fsRead (fsWrite fs p c) p = c := by
  simp [fsRead, fsWrite, List.lookup]

lemma execStep_skip (env : Env) (task : String) (fuel : Nat) (cmd : String)
    (st : ExecutionState) (fs : FS) (h : st.executedCommands.contains cmd = true) :
    execStep env task fuel cmd st fs = .cont st fs [] := by
  have hmem : cmd ∈ st.executedCommands := (contains_iff_mem _ _).mp h
  simp [execStep, hmem]

lemma cdStepAt_cont_mem {env : Env} {cmd : String} {st : ExecutionState} {fs : FS}
    {np : String} {st2 : ExecutionState} {fs2 : FS} {ev : List Event} {x : String}
    (h : cdStepAt env cmd st fs np = .cont st2 fs2 ev)
    (hx : x ∈ st.executedCommands) : x ∈ st2.executedCommands := by
  unfold cdStepAt at h
  split at h
  · simp at h
  · split at h
    · injection h with h1 h2 h3
      subst h1
      exact List.mem_append_left _ hx
    · simp at h

lemma cdStepAt_halt_exec {env : Env} {cmd : String} {st : ExecutionState} {fs : FS}
    {np : String} {o : Outcome} {st2 : ExecutionState} {fs2 : FS} {ev : List Event}
    (h : cdStepAt env cmd st fs np = .halt o st2 fs2 ev) :
    st2.executedCommands = st.executedCommands := by
  unfold cdStepAt at h
  split at h
  · injection h with h1 h2 h3 h4
    subst h2
    rfl
  · split at h
    · simp at h
    · injection h with h1 h2 h3 h4
      subst h2
      rfl

lemma fcStepAt_cont_mem {env : Env} {task : String} {fuel : Nat} {cmd : String}
    {st : ExecutionState} {fs : FS} {fp : String} {st2 : ExecutionState} {fs2 : FS}
    {ev : List Event} {x : String}
    (h : fcStepAt env task fuel cmd st fs fp = .cont st2 fs2 ev)
    (hx : x ∈ st.executedCommands) : x ∈ st2.executedCommands := by
  unfold fcStepAt at h
  split at h
  · simp at h
  · split at h
    · injection h with h1 h2 h3
      subst h1
      exact List.mem_append_left _ hx
    · simp at h
    · simp at h

lemma fcStepAt_halt_exec {env : Env} {task : String} {fuel : Nat} {cmd : String}
    {st : ExecutionState} {fs : FS} {fp : String} {o : Outcome} {st2 : ExecutionState}
    {fs2 : FS} {ev : List Event}
    (h : fcStepAt env task fuel cmd st fs fp = .halt o st2 fs2 ev) :
    st2.executedCommands = st.executedCommands := by
  unfold fcStepAt at h
  split at h
  · injection h with h1 h2 h3 h4
    subst h2
    rfl
  · split at h
    · simp at h
    · injection h with h1 h2 h3 h4
      subst h2
      rfl
    · injection h with h1 h2 h3 h4
      subst h2
      rfl

lemma execStep_cont_mem {env : Env} {task : String} {fuel : Nat} {cmd : String}
    {st : ExecutionState} {fs : FS} {st2 : ExecutionState} {fs2 : FS}
    {ev : List Event} {x : String}
    (h : execStep env task fuel cmd st fs = .cont st2 fs2 ev)
    (hx : x ∈ st.executedCommands) : x ∈ st2.executedCommands := by
  unfold execStep at h
  split at h
  · injection h with h1 h2 h3
    subst h1
    exact hx
  · split at h
    · exact cdStepAt_cont_mem h hx
    · split at h
      · exact fcStepAt_cont_mem h hx
      · split at h
        · injection h with h1 h2 h3
          subst h1
          exact List.mem_append_left _ hx
        · simp at h

lemma execStep_halt_exec {env : Env} {task : String} {fuel : Nat} {cmd : String}
    {st : ExecutionState} {fs : FS} {o : Outcome} {st2 : ExecutionState} {fs2 : FS}
    {ev : List Event}
    (h : execStep env task fuel cmd st fs = .halt o st2 fs2 ev) :
    st2.executedCommands = st.executedCommands
      ∧ st.executedCommands.contains cmd = false := by
  unfold execStep at h
  split at h
  · simp at h
  · rename_i hdd
    have hdd2 : st.executedCommands.contains cmd = false := by
      simpa using hdd
    split at h
    · exact ⟨cdStepAt_halt_exec h, hdd2⟩
    · split at h
      · exact ⟨fcStepAt_halt_exec h, hdd2⟩
      · split at h
        · simp at h
        · injection h with h1 h2 h3 h4
          subst h2
          exact ⟨rfl, hdd2⟩

lemma execCmds_dedup (env : Env) (task : String) (fuel : Nat) (c : String)
    (l2 : List String) :
    ∀ (l1 : List String) (st : ExecutionState) (fs : FS), c ∈ st.executedCommands →
      execCmds env task fuel (l1 ++ c :: l2) st fs
        = execCmds env task fuel (l1 ++ l2) st fs := by
  intro l1
  induction l1 with
  | nil =>
    intro st fs h
    have hc : st.executedCommands.contains c = true := (contains_iff_mem _ _).mpr h
    simp only [List.nil_append]
    rw [execCmds, execStep_skip env task fuel c st fs hc]
    simp
  | cons a l1 ih =>
    intro st fs h
    simp only [List.cons_append]
    rw [execCmds, execCmds]
    cases hstep : execStep env task fuel a st fs with
    | cont st2 fs2 ev =>
      dsimp only
      rw [ih st2 fs2 (execStep_cont_mem hstep h)]
    | halt o st2 fs2 ev => rfl

/-! ### Theorems about the claims -/

/-- C10: whenever the Plan Executor aborts with `success=false`, the failing
command line is not appended to `executedCommands`: the final
`executedCommands` is exactly that of the state reached by successfully
executing the prefix of candidate commands before the failing one, and the
failing command was not already in it. -/
theorem abort_keeps_only_completed (env : Env) (task : String) (fuel : Nat) :
    ∀ (cmds : List String) (st : ExecutionState) (fs : FS) (st2 : ExecutionState)
      (fs2 : FS) (ev : List Event),
      execCmds env task fuel cmds st fs = (.failed, st2, fs2, ev) →
      ∃ l1 cf l2 st1 fs1 ev1, cmds = l1 ++ cf :: l2
        ∧ execCmds env task fuel l1 st fs = (.ok, st1, fs1, ev1)
        ∧ st2.executedCommands = st1.executedCommands
        ∧ cf ∉ st1.executedCommands := by
  intro cmds
  induction cmds with
  | nil =>
    intro st fs st2 fs2 ev h
    rw [execCmds] at h
    simp at h
  | cons a rest ih =>
    intro st fs st2 fs2 ev h
    rw [execCmds] at h
    cases hstep : execStep env task fuel a st fs with
    | cont stA fsA evA =>
      rw [hstep] at h
      dsimp only at h
      rcases hr : execCmds env task fuel rest stA fsA with ⟨o1, st1', fs1', ev1'⟩
      rw [hr] at h
      simp only [Prod.mk.injEq] at h
      obtain ⟨ho, hst, hfs, hev⟩ := h
      subst ho
      subst hst
      subst hfs
      obtain ⟨l1, cf, l2, st1, fs1, ev1, hsplit, hpre, hexec, hnot⟩ :=
        ih stA fsA st1' fs1' ev1' hr
      refine ⟨a :: l1, cf, l2, st1, fs1, evA ++ ev1, by simp [hsplit], ?_, hexec, hnot⟩
      rw [execCmds, hstep]
      dsimp only
      rw [hpre]
    | halt o stH fsH evH =>
      rw [hstep] at h
      dsimp only at h
      simp only [Prod.mk.injEq] at h
      obtain ⟨ho, hst, hfs, hev⟩ := h
      subst hst
      obtain ⟨hexec, hcont⟩ := execStep_halt_exec hstep
      refine ⟨[], a, rest, st, fs, [], rfl, rfl, hexec, ?_⟩
      intro hmem
      have hmm := (contains_iff_mem _ _).mpr hmem
      rw [hcont] at hmm
      exact Bool.false_ne_true hmm

/-- Witness for C10 at a one-command plan whose shell command fails. -/
theorem abort_keeps_only_completed_witness :
    ∃ l1 cf l2 st1 fs1 ev1, ["boom"] = l1 ++ cf :: l2
      ∧ execCmds envShellFail "t" 1 l1 stR fsEmpty = (.ok, st1, fs1, ev1)
      ∧ stR.executedCommands = st1.executedCommands
      ∧ cf ∉ st1.executedCommands :=
  abort_keeps_only_completed envShellFail "t" 1 ["boom"] stR fsEmpty stR fsEmpty
    [Event.execSh "/r" "boom"] (by decide)

/-- Claim C1, counterexample: the line `node index.js` is not dispatched as a
generic shell command — its `.js` suffix makes `isFileCreationCommand` true,
so it is dispatched as a file creation with path `index.js`. -/
theorem classify_node_index_not_shell :
    classify "node index.js" = Classification.fileCreation "index.js"
    ∧ classify "node index.js" ≠ Classification.shellCommand := by decide

/-- Claim C1 (amended): the classifier dispatch table with the `node
index.js` row corrected — `cd src` is a directory change to `src`,
`touch app.py` a file creation at `app.py`, `npm run dev` is long-running
and filtered out of every candidate list, `# comment` is skipped, and
`node index.js` is a file creation at `index.js` (its extension matches the
recognized set). -/
theorem classifier_table_amended :
    classify "cd src" = Classification.directoryChange "src"
    ∧ classify "touch app.py" = Classification.fileCreation "app.py"
    ∧ classify "npm run dev" = Classification.longRunning
    ∧ planToCommands "npm run dev" = []
    ∧ classify "# comment" = Classification.skip
    ∧ classify "node index.js" = Classification.fileCreation "index.js" := by decide

/-- Claim C2: fence-stripping is not idempotent.  On the ordinary oracle
response consisting of a fenced block followed by a trailing newline, one
application leaves the closing fence behind (the trailing newline blocks the
end-anchored fence match, and the final trim then exposes the fence), so a
second application removes more. -/
theorem stripCodeFences_not_idempotent :
    stripCodeFences "```js\ncode\n```\n" = "code\n```"
    ∧ stripCodeFences (stripCodeFences "```js\ncode\n```\n")
        ≠ stripCodeFences "```js\ncode\n```\n" := by decide

/-- Claim C3, counterexample: the Run step of the Runtime Validator executes
a `.py` artifact with `node`, not with a Python interpreter. -/
theorem runFix_uses_node_for_py :
    runFix envOk 1 fsEmpty "script.py" "task"
      = (.done, fsEmpty, [Event.execRun "node script.py"])
    ∧ strStartsWith "node script.py" "python" = false := by decide

/-- Claim C3 (amended): every run command the Runtime Validator ever issues
is exactly `node <filePath>`, regardless of the artifact's extension. -/
theorem runFix_always_node (env : Env) :
    ∀ (fuel : Nat) (fs : FS) (p task c : String),
      Event.execRun c ∈ (runFix env fuel fs p task).2.2 → c = "node " ++ p := by
  intro fuel
  induction fuel with
  | zero =>
    intro fs p task c h
    simp [runFix] at h
  | succ n ih =>
    intro fs p task c h
    rw [runFix] at h
    by_cases hr : env.runOk p (fsRead fs p) = true
    · simp [hr] at h
      exact h
    · cases hfix : env.fixOracle (fsRead fs p) (env.runErr p (fsRead fs p)) task with
      | none =>
        simp [hr, hfix] at h
        exact h
      | some raw =>
        simp [hr, hfix] at h
        rcases h with h | h
        · exact h
        · exact ih _ _ _ _ h

/-- Witness for C3's amended theorem at a concrete `.py` artifact. -/
theorem runFix_always_node_witness :
    Event.execRun "node a.py" ∈ (runFix envOk 1 fsEmpty "a.py" "task").2.2
    ∧ "node a.py" = "node " ++ "a.py" :=
  ⟨by decide, runFix_always_node envOk 1 fsEmpty "a.py" "task" "node a.py" (by decide)⟩

/-- Claim C5: if the literal command string `c` is already in
`executedCommands`, executing any plan whose candidate list contains `c`
behaves exactly as executing the same plan with `c` removed — `c` is
skipped, with no subprocess, filesystem or oracle activity for it. -/
theorem dedup_skips_executed (env : Env) (task : String) (fuel : Nat)
    (c plan : String) (l1 l2 : List String) (st : ExecutionState) (fs : FS)
    (h1 : c ∈ st.executedCommands)
    (h2 : planToCommands plan = l1 ++ c :: l2) :
    executePlan env fuel plan st fs task = execCmds env task fuel (l1 ++ l2) st fs := by
  unfold executePlan
  rw [h2]
  exact execCmds_dedup env task fuel c l2 l1 st fs h1

/-- Witness for C5: a state that already executed `echo hi` skips a plan
consisting of exactly that command. -/
theorem dedup_skips_executed_witness :
    "echo hi" ∈ (ExecutionState.mk "/r" ["echo hi"] none).executedCommands
    ∧ executePlan envOk 1 "echo hi" (ExecutionState.mk "/r" ["echo hi"] none) fsEmpty "t"
        = execCmds envOk "t" 1 ([] ++ []) (ExecutionState.mk "/r" ["echo hi"] none) fsEmpty :=
  ⟨by decide,
    dedup_skips_executed envOk "t" 1 "echo hi" "echo hi" [] []
      (ExecutionState.mk "/r" ["echo hi"] none) fsEmpty (by decide) (by decide)⟩

lemma execStep_shell_ok (env : Env) (task : String) (fuel : Nat) (cmd : String)
    (st : ExecutionState) (fs : FS)
    (h1 : cmd ∉ st.executedCommands)
    (h2 : strStartsWith cmd "cd " = false)
    (h3 : isFileCreationCommand cmd = false)
    (h4 : env.shellExec st.currentDir cmd = true) :
    execStep env task fuel cmd st fs =
      .cont { st with executedCommands := st.executedCommands ++ [cmd] }
        fs [Event.execSh st.currentDir cmd] := by
  simp [execStep, h1, h2, h3, h4]

lemma execStep_shell_fail (env : Env) (task : String) (fuel : Nat) (cmd : String)
    (st : ExecutionState) (fs : FS)
    (h1 : cmd ∉ st.executedCommands)
    (h2 : strStartsWith cmd "cd " = false)
    (h3 : isFileCreationCommand cmd = false)
    (h4 : env.shellExec st.currentDir cmd = false) :
    execStep env task fuel cmd st fs =
      .halt .failed st fs [Event.execSh st.currentDir cmd] := by
  simp [execStep, h1, h2, h3, h4]

/-- Claim C6: on a plan of three candidate shell commands where the first
succeeds and the second fails, the third is never executed (no event of it
appears) and the executor returns `success=false` with `executedCommands`
containing only the first command. -/
theorem sequential_abort (env : Env) (fuel : Nat) (task : String)
    (plan c1 c2 c3 : String) (st : ExecutionState) (fs : FS)
    (h0 : st.executedCommands = [])
    (hplan : planToCommands plan = [c1, c2, c3])
    (hcd1 : strStartsWith c1 "cd " = false)
    (hfc1 : isFileCreationCommand c1 = false)
    (hs1 : env.shellExec st.currentDir c1 = true)
    (hne : c2 ≠ c1)
    (hcd2 : strStartsWith c2 "cd " = false)
    (hfc2 : isFileCreationCommand c2 = false)
    (hs2 : env.shellExec st.currentDir c2 = false) :
    executePlan env fuel plan st fs task =
      (.failed, { st with executedCommands := [c1] }, fs,
        [Event.execSh st.currentDir c1, Event.execSh st.currentDir c2]) := by
  unfold executePlan
  rw [hplan, execCmds,
    execStep_shell_ok env task fuel c1 st fs (by simp [h0]) hcd1 hfc1 hs1]
  dsimp only
  rw [execCmds,
    execStep_shell_fail env task fuel c2 _ fs (by simp [h0, hne]) hcd2 hfc2
      (by simpa using hs2)]
  dsimp only
  simp [h0]

/-- Witness for C6: `alpha` succeeds, `beta` fails, `gamma` never runs. -/
theorem sequential_abort_witness :
    executePlan envShellAlpha 1 "alpha\nbeta\ngamma" stR fsEmpty "t" =
      (.failed, { stR with executedCommands := ["alpha"] }, fsEmpty,
        [Event.execSh "/r" "alpha", Event.execSh "/r" "beta"]) :=
  sequential_abort envShellAlpha 1 "t" "alpha\nbeta\ngamma" "alpha" "beta" "gamma"
    stR fsEmpty (by decide) (by decide) (by decide) (by decide) (by decide)
    (by decide) (by decide) (by decide) (by decide)

/-- Claim C7: when the first generated version of an artifact fails at run
time and the repaired second version succeeds, the Runtime Validator
reaches `Done` after exactly one repair cycle (one repair-oracle call, one
rewrite, one re-run), and the file on disk afterwards holds the second
version — the repair oracle's response after trimming and fence-stripping. -/
theorem self_healing_one_repair (env : Env) (n : Nat) (fs : FS)
    (p task v1 e raw2 : String)
    (h1 : fsRead fs p = v1)
    (h2 : env.runOk p v1 = false)
    (h3 : env.runErr p v1 = e)
    (h4 : env.fixOracle v1 e task = some raw2)
    (h5 : env.runOk p (stripCodeFences (jsTrim raw2)) = true) :
    runFix env (n + 2) fs p task =
      (.done, fsWrite fs p (stripCodeFences (jsTrim raw2)),
        [Event.execRun ("node " ++ p), Event.oracleFix v1 e task,
         Event.writeF p (stripCodeFences (jsTrim raw2)),
         Event.execRun ("node " ++ p)])
    ∧ fsRead (fsWrite fs p (stripCodeFences (jsTrim raw2))) p
        = stripCodeFences (jsTrim raw2) := by
  refine ⟨?_, fsRead_fsWrite fs p _⟩
  rw [show n + 2 = (n + 1) + 1 from rfl, runFix]
  simp only [h1, h2, h3, h4, Bool.false_eq_true, if_false]
  rw [runFix]
  simp [fsRead_fsWrite, h5]

/-- Witness for C7 with a concrete failing first version. -/
theorem self_healing_one_repair_witness :
    runFix envRepair 2 (fsWrite fsEmpty "/r/a.js" "one") "/r/a.js" "t" =
      (.done, fsWrite (fsWrite fsEmpty "/r/a.js" "one") "/r/a.js"
          (stripCodeFences (jsTrim "fix")),
        [Event.execRun ("node " ++ "/r/a.js"), Event.oracleFix "one" "err" "t",
         Event.writeF "/r/a.js" (stripCodeFences (jsTrim "fix")),
         Event.execRun ("node " ++ "/r/a.js")])
    ∧ fsRead (fsWrite (fsWrite fsEmpty "/r/a.js" "one") "/r/a.js"
          (stripCodeFences (jsTrim "fix"))) "/r/a.js"
        = stripCodeFences (jsTrim "fix") :=
  self_healing_one_repair envRepair 0 (fsWrite fsEmpty "/r/a.js" "one")
    "/r/a.js" "t" "one" "err" "fix" (by decide) (by decide) (by decide)
    (by decide) (by decide)

lemma execStep_cd_ok (env : Env) (task : String) (fuel : Nat) (t : String)
    (st : ExecutionState) (fs : FS)
    (h1 : ("cd " ++ t) ∉ st.executedCommands)
    (ht1 : jsTrim t = t)
    (ht2 : strStartsWith t "/" = false)
    (ht3 : t ≠ "")
    (hfs : (st.currentDir ++ "/" ++ t) ∉ fs.dirs)
    (hmk : env.mkdirOk (st.currentDir ++ "/" ++ t) = true)
    (hch : env.chdirOk (st.currentDir ++ "/" ++ t) = true) :
    execStep env task fuel ("cd " ++ t) st fs =
      .cont { st with currentDir := st.currentDir ++ "/" ++ t,
                      executedCommands := st.executedCommands ++ ["cd " ++ t] }
        (fsMkdir fs (st.currentDir ++ "/" ++ t))
        [Event.mkdirE (st.currentDir ++ "/" ++ t),
         Event.chdirE (st.currentDir ++ "/" ++ t)] := by
  have hresolve : pathResolve st.currentDir (jsTrim (strDropN ("cd " ++ t) 3))
      = st.currentDir ++ "/" ++ t := by
    rw [strDropN_cd, ht1]
    simp [pathResolve, ht2, ht3]
  simp [execStep, h1, strStartsWith_append, hresolve, cdStepAt, hfs, hmk, hch]

lemma execStep_fc_ok (env : Env) (task : String) (n : Nat) (cmd : String)
    (st : ExecutionState) (fs : FS) (f raw : String)
    (h1 : cmd ∉ st.executedCommands)
    (h2 : strStartsWith cmd "cd " = false)
    (h3 : isFileCreationCommand cmd = true)
    (hlt : lastToken cmd = f)
    (hf1 : strStartsWith f "/" = false)
    (hf2 : f ≠ "")
    (hgen : env.genOracle (st.currentDir ++ "/" ++ f) task = some raw)
    (hrun : env.runOk (st.currentDir ++ "/" ++ f) (stripCodeFences (jsTrim raw)) = true) :
    execStep env task (n + 1) cmd st fs =
      .cont { st with executedCommands := st.executedCommands ++ [cmd] }
        (fsWrite fs (st.currentDir ++ "/" ++ f) (stripCodeFences (jsTrim raw)))
        [Event.oracleGen (st.currentDir ++ "/" ++ f) task,
         Event.writeF (st.currentDir ++ "/" ++ f) (stripCodeFences (jsTrim raw)),
         Event.execRun ("node " ++ (st.currentDir ++ "/" ++ f))] := by
  have hresolve : pathResolve st.currentDir (lastToken cmd) = st.currentDir ++ "/" ++ f := by
    rw [hlt]
    simp [pathResolve, hf1, hf2]
  have hrfix : runFix env (n + 1)
      (fsWrite fs (st.currentDir ++ "/" ++ f) (stripCodeFences (jsTrim raw)))
      (st.currentDir ++ "/" ++ f) task
      = (.done, fsWrite fs (st.currentDir ++ "/" ++ f) (stripCodeFences (jsTrim raw)),
          [Event.execRun ("node " ++ (st.currentDir ++ "/" ++ f))]) := by
    rw [runFix]
    simp [fsRead_fsWrite, hrun]
  simp [execStep, h1, h2, h3, hresolve, fcStepAt, hgen, hrfix]

/-- Claim C9: from `currentDirectory` `D`, the line `cd t` creates `D/t` on
disk (it did not exist before), updates `currentDirectory` to `D/t`, and a
subsequent relative file-creation command resolves its target against
`D/t` — the generation oracle and the write are invoked at `D/t/f`. -/
theorem cd_effect (env : Env) (n : Nat) (task : String) (t cmd2 f raw : String)
    (st : ExecutionState) (fs : FS)
    (h0 : st.executedCommands = [])
    (ht1 : jsTrim t = t)
    (ht2 : strStartsWith t "/" = false)
    (ht3 : t ≠ "")
    (hfs : (st.currentDir ++ "/" ++ t) ∉ fs.dirs)
    (hmk : env.mkdirOk (st.currentDir ++ "/" ++ t) = true)
    (hch : env.chdirOk (st.currentDir ++ "/" ++ t) = true)
    (hne : cmd2 ≠ "cd " ++ t)
    (hc2cd : strStartsWith cmd2 "cd " = false)
    (hc2fc : isFileCreationCommand cmd2 = true)
    (hlt : lastToken cmd2 = f)
    (hf1 : strStartsWith f "/" = false)
    (hf2 : f ≠ "")
    (hgen : env.genOracle (st.currentDir ++ "/" ++ t ++ "/" ++ f) task = some raw)
    (hrun : env.runOk (st.currentDir ++ "/" ++ t ++ "/" ++ f)
        (stripCodeFences (jsTrim raw)) = true) :
    execCmds env task (n + 1) ["cd " ++ t, cmd2] st fs =
      (.ok,
        { st with currentDir := st.currentDir ++ "/" ++ t,
                  executedCommands := ["cd " ++ t, cmd2] },
        fsWrite (fsMkdir fs (st.currentDir ++ "/" ++ t))
          (st.currentDir ++ "/" ++ t ++ "/" ++ f) (stripCodeFences (jsTrim raw)),
        [Event.mkdirE (st.currentDir ++ "/" ++ t),
         Event.chdirE (st.currentDir ++ "/" ++ t),
         Event.oracleGen (st.currentDir ++ "/" ++ t ++ "/" ++ f) task,
         Event.writeF (st.currentDir ++ "/" ++ t ++ "/" ++ f)
           (stripCodeFences (jsTrim raw)),
         Event.execRun ("node " ++ (st.currentDir ++ "/" ++ t ++ "/" ++ f))])
    ∧ (st.currentDir ++ "/" ++ t)
        ∈ (fsWrite (fsMkdir fs (st.currentDir ++ "/" ++ t))
            (st.currentDir ++ "/" ++ t ++ "/" ++ f)
            (stripCodeFences (jsTrim raw))).dirs := by
  refine ⟨?_, by simp [fsWrite, fsMkdir]⟩
  have h1 : ("cd " ++ t) ∉ st.executedCommands := by simp [h0]
  rw [execCmds, execStep_cd_ok env task (n + 1) t st fs h1 ht1 ht2 ht3 hfs hmk hch]
  dsimp only
  rw [execCmds, execStep_fc_ok env task n cmd2 _ _ f raw
    (by simp [h0, hne]) hc2cd hc2fc hlt hf1 hf2 hgen hrun]
  dsimp only
  rw [execCmds]
  simp [h0]

/-- Witness for C9: `cd sub` followed by `touch app.js` from `/r`. -/
theorem cd_effect_witness :
    execCmds envOk "t" 1 ["cd sub", "touch app.js"] stR fsEmpty =
      (.ok, { stR with currentDir := "/r/sub",
                       executedCommands := ["cd sub", "touch app.js"] },
        fsWrite (fsMkdir fsEmpty "/r/sub") "/r/sub/app.js"
          (stripCodeFences (jsTrim "gen")),
        [Event.mkdirE "/r/sub", Event.chdirE "/r/sub",
         Event.oracleGen "/r/sub/app.js" "t",
         Event.writeF "/r/sub/app.js" (stripCodeFences (jsTrim "gen")),
         Event.execRun "node /r/sub/app.js"])
    ∧ "/r/sub" ∈ (fsWrite (fsMkdir fsEmpty "/r/sub") "/r/sub/app.js"
        (stripCodeFences (jsTrim "gen"))).dirs := by
  exact cd_effect envOk 0 "t" "sub" "touch app.js" "app.js" "gen" stR fsEmpty
    (by decide) (by decide) (by decide) (by decide) (by decide) (by decide)
    (by decide) (by decide) (by decide) (by decide) (by decide) (by decide)
    (by decide) (by decide) (by decide)

/-- Claim C4, counterexample: when the generation oracle fails while the
plan's only command is a file creation, the run ends through the top-level
fatal-error handler after a single planning call — no new planning attempt
is made, so recovery does not happen through the attempt-level feedback
loop. -/
theorem oracle_error_no_retry_example :
    driverLoop envGenNone 1 3 stR fsEmpty "t"
      = (.fatalError, stR, fsEmpty, [Event.oracleGen "/r/app.py" "t"], 1) := by
  decide

/-- Claim C4 (amended): a generation-oracle failure during a FileCreation
command aborts the current plan at that command and propagates out of
`executePlan` and out of the retry loop of `main` as an exception: the run
terminates through the top-level fatal-error handler after exactly one
planning call, with no further planning attempt. -/
theorem oracle_error_fatal (env : Env) (fuel : Nat) (st : ExecutionState)
    (fs : FS) (task r : String) (stE : ExecutionState) (fsE2 : FS)
    (evE : List Event)
    (hp : env.planOracle st task = some r)
    (hc : env.confirm 3 = true)
    (he : executePlan env fuel (stripCodeFences (jsTrim r)) st fs task
        = (.oracleErr, stE, fsE2, evE)) :
    driverLoop env fuel 3 st fs task = (.fatalError, stE, fsE2, evE, 1) := by
  simp [driverLoop, hp, hc, he]

/-- Witness for C4's amended theorem: concrete failing generation oracle. -/
theorem oracle_error_fatal_witness :
    driverLoop envGenNone 1 3 stR fsEmpty "task2"
      = (.fatalError, stR, fsEmpty, [Event.oracleGen "/r/app.py" "task2"], 1) :=
  oracle_error_fatal envGenNone 1 stR fsEmpty "task2" "touch app.py" stR fsEmpty
    [Event.oracleGen "/r/app.py" "task2"] (by decide) (by decide) (by decide)

/-- Claim C8: three consecutive Plan Executor failures, with the operator
confirming each plan and supplying feedback each time, terminate the
Session Driver with "maximum attempts reached" after exactly 3
planning-oracle calls — a 4th call is never made. -/
theorem attempt_ceiling (env : Env) (fuel : Nat) (st : ExecutionState) (fs : FS)
    (task r1 r2 r3 : String) (st1 : ExecutionState) (fs1 : FS) (ev1 : List Event)
    (st2 : ExecutionState) (fs2 : FS) (ev2 : List Event)
    (st3 : ExecutionState) (fs3 : FS) (ev3 : List Event)
    (hp1 : env.planOracle st task = some r1)
    (hc1 : env.confirm 3 = true)
    (he1 : executePlan env fuel (stripCodeFences (jsTrim r1)) st fs task
        = (.failed, st1, fs1, ev1))
    (hp2 : env.planOracle st1 (task ++ "\nError: " ++ env.feedback 3) = some r2)
    (hc2 : env.confirm 2 = true)
    (he2 : executePlan env fuel (stripCodeFences (jsTrim r2)) st1 fs1
        (task ++ "\nError: " ++ env.feedback 3) = (.failed, st2, fs2, ev2))
    (hp3 : env.planOracle st2
        (task ++ "\nError: " ++ env.feedback 3 ++ "\nError: " ++ env.feedback 2)
        = some r3)
    (hc3 : env.confirm 1 = true)
    (he3 : executePlan env fuel (stripCodeFences (jsTrim r3)) st2 fs2
        (task ++ "\nError: " ++ env.feedback 3 ++ "\nError: " ++ env.feedback 2)
        = (.failed, st3, fs3, ev3)) :
    driverLoop env fuel 3 st fs task
      = (.maxAttempts, st3, fs3, ev1 ++ ev2 ++ ev3, 3) := by
  simp [driverLoop, hp1, hc1, he1, hp2, hc2, he2, hp3, hc3, he3]

/-- Witness for C8: every attempt plans the failing command `beta`. -/
theorem attempt_ceiling_witness :
    driverLoop envPlanBeta 1 3 stR fsEmpty "t"
      = (.maxAttempts, stR, fsEmpty,
          [Event.execSh "/r" "beta"] ++ [Event.execSh "/r" "beta"]
            ++ [Event.execSh "/r" "beta"], 3) :=
  attempt_ceiling envPlanBeta 1 stR fsEmpty "t" "beta" "beta" "beta"
    stR fsEmpty [Event.execSh "/r" "beta"]
    stR fsEmpty [Event.execSh "/r" "beta"]
    stR fsEmpty [Event.execSh "/r" "beta"]
    (by decide) (by decide) (by decide) (by decide) (by decide) (by decide)
    (by decide) (by decide) (by decide)

end Agent
